import Mathlib

/-!
Shallow embedding of the nuggetizer pipeline core
(`src/nuggetizer/models/nuggetizer.py` and `src/nuggetizer/core/llm.py`).

The LLM itself is external: each generation call is abstracted by an oracle
indexed by the number of calls made so far to that handler.  For the
stage-level model (`Nuggetizer.create` / `Nuggetizer.assign`) one oracle
outcome summarises one `LLMHandler.run` call together with the
`ast.literal_eval` parse of its stripped response text:

  * `genError`   — `run` raised (transport failure after its internal retries,
                   content filter, ...); caught by the first `try` block.
  * `parseError` — `run` returned a string but stripping/`literal_eval`/the
                   immediate use of the parsed value raised before the
                   per-item loop consumed any element (malformed literal,
                   non-sequence value, ...); caught by the second `try` block.
  * `parsed xs`  — `literal_eval` produced a sequence whose elements are `xs`.

Python values inside a parsed sequence are modelled by `PyVal`: scoring and
assignment call `.lower()` on each element, which succeeds exactly on
strings and raises otherwise (mid-loop, after earlier elements were already
appended — the model keeps those partial appends).

Prompt construction (`create_nugget_prompt` / `create_score_prompt` /
`create_assign_prompt`) only produces the text sent to the LLM, so it is
absorbed into the oracle; `Trace`/`reasoning` metadata attached to emitted
entities is not modelled (no claim concerns it).  Temperatures passed to
`run` are recorded in a call log (`List ℚ`, one entry per generation call,
in order), which also gives the call count.
-/

/-- A Python value appearing in a parsed response sequence: a string, or
anything else (on which `.lower()` raises `AttributeError`). -/
inductive PyVal where
  | str (s : String)
  | other
  deriving DecidableEq, Repr

/-- Fields of `core/types.py` `ScoredNugget` that the pipeline logic reads. -/
structure ScoredNugget where
  text : String
  importance : String
  deriving DecidableEq, Repr

/-- Fields of `core/types.py` `AssignedScoredNugget` that the pipeline logic reads. -/
structure AssignedScoredNugget where
  text : String
  importance : String
  assignment : String
  deriving DecidableEq, Repr

namespace Nuggetizer

/-- Outcome of one creator-LLM call, as seen by `create`'s extraction loop
(parsed nugget texts are modelled as strings, matching the `List[str]`
contract of the creator prompt). -/
inductive CreatorOutcome where
  | genError
  | parseError
  | parsed (xs : List String)
  deriving DecidableEq, Repr

/-- Outcome of one scorer-LLM call, as seen by `create`'s scoring loop. -/
inductive ScorerOutcome where
  | genError
  | parseError
  | parsed (xs : List PyVal)
  deriving DecidableEq, Repr

/-- Outcome of one assigner-LLM call, as seen by `assign`. -/
inductive AssignerOutcome where
  | genError
  | parseError
  | parsed (xs : List PyVal)
  deriving DecidableEq, Repr

/-- The escalated temperature set on every parse failure
(`temperature = 0.2` in all three retry loops). -/
def escTemp : ℚ := 0.2

/-- Extraction inner retry loop of `create` (`nuggetizer.py` lines 143-168):
`temperature = 0.0; trial_count = 500; while trial_count > 0: ...`.
State is the working nugget list `current_nuggets` plus the call log.
On generation failure: log and `break` (list unchanged).  On parse success:
`current_nuggets = nugget_texts[:creator_max_nuggets]` and `break`.  On parse
failure: `temperature = 0.2; trial_count -= 1` and retry; exhausting the
budget leaves the list unchanged (the extraction loop has no default
emission). -/
def createTrials (oracle : Nat → CreatorOutcome) (maxN : Nat) (cur : List String)
    (temp : ℚ) (log : List ℚ) : Nat → List String × List ℚ
  | 0 => (cur, log)
  | t + 1 =>
    match oracle log.length with
    | .genError => (cur, log ++ [temp])
    | .parsed xs => (xs.take maxN, log ++ [temp])
    | .parseError =>
      if t = 0 then (cur, log ++ [temp])
      else createTrials oracle maxN cur escTemp (log ++ [temp]) t

/-- Extraction outer window loop of `create` (`nuggetizer.py` lines 132-168):
`start = 0; while start < len(request.documents): end = min(start +
creator_window_size, len(documents)); ...` — note the source never updates
`start` inside this loop (unlike the scoring and assignment loops, which end
with `start = end`).  `fuel` bounds the number of iterations the model is
willing to unfold; `none` means the loop was still running when fuel ran
out.  Documents are only used to build the prompt, so only their count
matters here. -/
def createLoop (oracle : Nat → CreatorOutcome) (w maxN numDocs : Nat)
    (cur : List String) (log : List ℚ) (start : Nat) : Nat → Option (List String × List ℚ)
  | 0 => if start < numDocs then none else some (cur, log)
  | fuel + 1 =>
    if start < numDocs then
      let _e := min (start + w) numDocs
      let p := createTrials oracle maxN cur 0 log 500
      createLoop oracle w maxN numDocs p.1 p.2 start fuel
    else some (cur, log)

/-- Output of the scoring phase: emitted `ScoredNugget`s plus the scorer call
log. -/
structure ScoreState where
  out : List ScoredNugget
  log : List ℚ
  deriving DecidableEq, Repr

/-- Model of Python `str.lower()` (character-wise lower-casing; the model
only ever meets ASCII labels).  Defined on the character list so that it
reduces inside the kernel. -/
def pyLower (s : String) : String := ⟨s.data.map Char.toLower⟩

/-- The `for i, (nugget_text, score) in enumerate(zip(current_nuggets[start:end],
scores))` loop of the scoring phase: appends `ScoredNugget(text=nugget_text,
importance=score.lower())` pairwise until either list ends (second component
`true`: the loop completed and the code `break`s) or a non-string score makes
`.lower()` raise (second component `false`: the partial appends stay and
control moves to the `except` branch). -/
def scoreAppend : List String → List PyVal → List ScoredNugget × Bool
  | _, [] => ([], true)
  | [], _ :: _ => ([], true)
  | t :: ts, .str s :: vs =>
    let r := scoreAppend ts vs
    (⟨t, pyLower s⟩ :: r.1, r.2)
  | _ :: _, .other :: _ => ([], false)

/-- The exhausted-budget default emission of the scoring phase
(`nuggetizer.py` lines 237-252): one `ScoredNugget` with
`importance="okay"` per window item. -/
def scoreDefaults (window : List String) : List ScoredNugget :=
  window.map fun t => ⟨t, "okay"⟩

/-- Scoring inner retry loop (`nuggetizer.py` lines 183-252).  On generation
failure: log and `break` — nothing is emitted for the window.  On a response:
either the pairwise append completes (`break`), or the parse/append raised:
`trial_count -= 1; temperature = 0.2`, and if the counter reached zero the
window is emitted with the `"okay"` defaults. -/
def scoreTrials (oracle : Nat → ScorerOutcome) (window : List String)
    (st : ScoreState) (temp : ℚ) : Nat → ScoreState
  | 0 => st
  | t + 1 =>
    match oracle st.log.length with
    | .genError => ⟨st.out, st.log ++ [temp]⟩
    | .parseError =>
      if t = 0 then ⟨st.out ++ scoreDefaults window, st.log ++ [temp]⟩
      else scoreTrials oracle window ⟨st.out, st.log ++ [temp]⟩ escTemp t
    | .parsed xs =>
      let r := scoreAppend window xs
      if r.2 then ⟨st.out ++ r.1, st.log ++ [temp]⟩
      else if t = 0 then ⟨st.out ++ r.1 ++ scoreDefaults window, st.log ++ [temp]⟩
      else scoreTrials oracle window ⟨st.out ++ r.1, st.log ++ [temp]⟩ escTemp t

/-- Scoring outer window loop (`nuggetizer.py` lines 172-253): windows of
`scorer_window_size` over the fixed nugget list, `start = end` at the end of
each iteration (represented by recursing on the dropped remainder).  `none`
means fuel ran out with the loop still running (only possible when the
window size is `0`, where the source loops forever). -/
def scoreLoop (oracle : Nat → ScorerOutcome) (w : Nat) :
    List String → ScoreState → Nat → Option ScoreState
  | [], st, _ => some st
  | _ :: _, _, 0 => none
  | rest@(_ :: _), st, fuel + 1 =>
    scoreLoop oracle w (rest.drop w) (scoreTrials oracle (rest.take w) st 0 500) fuel

/-- Model of `Nuggetizer.create` (`nuggetizer.py` lines 128-255): the extraction
window loop followed by the scoring window loop over the extracted list. -/
def create (cOracle : Nat → CreatorOutcome) (sOracle : Nat → ScorerOutcome)
    (cw sw maxN numDocs fuel : Nat) : Option ScoreState :=
  match createLoop cOracle cw maxN numDocs [] [] 0 fuel with
  | none => none
  | some (cur, _) => scoreLoop sOracle sw cur ⟨[], []⟩ fuel

/-- Output of `assign`: emitted `AssignedScoredNugget`s plus the assigner
call log. -/
structure AssignState where
  out : List AssignedScoredNugget
  log : List ℚ
  deriving DecidableEq, Repr

/-- The `for nugget, assignment in zip(window_nuggets, assignments)` loop of
`assign`: appends `AssignedScoredNugget(text=nugget.text,
importance=nugget.importance, assignment=assignment.lower())` pairwise until
either list ends (`true`) or a non-string assignment makes `.lower()` raise
(`false`, partial appends kept). -/
def assignAppend : List ScoredNugget → List PyVal → List AssignedScoredNugget × Bool
  | _, [] => ([], true)
  | [], _ :: _ => ([], true)
  | n :: ns, .str s :: vs =>
    let r := assignAppend ns vs
    (⟨n.text, n.importance, pyLower s⟩ :: r.1, r.2)
  | _ :: _, .other :: _ => ([], false)

/-- The `"failed"` emission of `assign`, used both when the generation call
raises (`nuggetizer.py` lines 287-290) and when the parse-retry budget is
exhausted (lines 332-350): one entity per window nugget, importance kept,
`assignment="failed"`. -/
def assignFailed (window : List ScoredNugget) : List AssignedScoredNugget :=
  window.map fun n => ⟨n.text, n.importance, "failed"⟩

/-- Assignment inner retry loop (`nuggetizer.py` lines 273-350).  On
generation failure: emit the `"failed"` entities and `break`.  On a
response: either the pairwise append completes (`break`), or
`trial_count -= 1; temperature = 0.2`, and if the counter reached zero the
window is emitted with the `"failed"` defaults. -/
def assignTrials (oracle : Nat → AssignerOutcome) (window : List ScoredNugget)
    (st : AssignState) (temp : ℚ) : Nat → AssignState
  | 0 => st
  | t + 1 =>
    match oracle st.log.length with
    | .genError => ⟨st.out ++ assignFailed window, st.log ++ [temp]⟩
    | .parseError =>
      if t = 0 then ⟨st.out ++ assignFailed window, st.log ++ [temp]⟩
      else assignTrials oracle window ⟨st.out, st.log ++ [temp]⟩ escTemp t
    | .parsed xs =>
      let r := assignAppend window xs
      if r.2 then ⟨st.out ++ r.1, st.log ++ [temp]⟩
      else if t = 0 then ⟨st.out ++ r.1 ++ assignFailed window, st.log ++ [temp]⟩
      else assignTrials oracle window ⟨st.out ++ r.1, st.log ++ [temp]⟩ escTemp t

/-- Assignment outer window loop (`nuggetizer.py` lines 261-351):
windows of `assigner_window_size` over the input nugget list, `start = end`
at the end of each iteration. -/
def assignLoop (oracle : Nat → AssignerOutcome) (w : Nat) :
    List ScoredNugget → AssignState → Nat → Option AssignState
  | [], st, _ => some st
  | _ :: _, _, 0 => none
  | rest@(_ :: _), st, fuel + 1 =>
    assignLoop oracle w (rest.drop w) (assignTrials oracle (rest.take w) st 0 500) fuel

/-- Model of `Nuggetizer.assign` (`nuggetizer.py` lines 257-353).  `query` and
`context` flow only into `create_assign_prompt`, i.e. into the text handed
to the LLM, which the oracle abstracts; the source contains no test on
`context` (in particular no empty-passage special case). -/
def assign (query context : String) (oracle : Nat → AssignerOutcome) (w : Nat)
    (nuggets : List ScoredNugget) (fuel : Nat) : Option AssignState :=
  assignLoop oracle w nuggets ⟨[], []⟩ fuel

end Nuggetizer

namespace LLMHandler

/-!
Model of `LLMHandler.run` (`core/llm.py` lines 115-262).

The caller passes a Python list of message dicts; the loop may mutate the
dicts' `"content"` entries in place (they are shared with the caller), so
message contents live in an explicit heap: `heap : List String` holds the
`"content"` string of each message cell, and a message list is a list of
cell addresses (indices into the heap).  Everything the provider does in one
`client.chat.completions.create(...)` attempt — including the post-call
response processing inside the same `try` block — is abstracted by an oracle
indexed by the attempt number: an attempt either returns a content string,
or raises with a flag recording whether `completion.choices[0].finish_reason
== "content_filter"` held at `except` time.
-/

/-- Result of one provider attempt (one iteration's `try` block). -/
inductive AttemptOutcome where
  | ok (content : String)
  | err (contentFilter : Bool)
  deriving DecidableEq, Repr

/-- The distinct errors `run` can raise (Python exception kinds). -/
inductive RunError where
  /-- Raised as `RuntimeError("Reached max of 5 retries.")` — retry budget exhausted. -/
  | reachedMaxRetries
  /-- Raised as `ValueError("Request blocked by content filter.")`. -/
  | contentFilter
  /-- Raised as an `IndexError` escaping the o-model message-merge block (lines 127-133
  run outside any `try`). -/
  | indexError
  /-- Raised as `RuntimeError("Unexpected end of method")` after the loop (line 262). -/
  | unexpectedEnd
  deriving DecidableEq, Repr

/-- Mutable state visible across the retry loop (and, for `heap`, shared
with the caller).  `log` records the client credential in use at each
attempt, in order, so `log.length` is the number of attempts made. -/
structure RunState where
  heap : List String
  msgs : List Nat
  temp : ℚ
  keyIdx : Nat
  clientKey : String
  log : List String
  deriving DecidableEq, Repr

/-- Python substring test `"o1" in self.model or "o3" in self.model or "o4" in
self.model`. -/
def isOModel (model : String) : Bool :=
  decide ("o1".toList <:+: model.toList) || decide ("o3".toList <:+: model.toList)
    || decide ("o4".toList <:+: model.toList)

/-- The model families whose temperature is forced to `1.0` (lines 134-140). -/
def isFixedTempModel (model : String) : Bool :=
  isOModel model || decide ("gpt-5".toList <:+: model.toList)

/-- The o-model system/user message merge (lines 128-133):
`new_messages = messages[1:]` (the dicts stay shared),
`new_messages[0]["content"] = messages[0]["content"] + "\n" +
messages[1]["content"]` (an in-place write to the caller's second dict),
`messages = new_messages[:]`.  With fewer than two messages,
`new_messages[0]` raises `IndexError` (`none`). -/
def mergeO (heap : List String) (msgs : List Nat) : Option (List String × List Nat) :=
  match msgs with
  | a0 :: a1 :: rest =>
    some (heap.set a1 (heap.getD a0 "" ++ "\n" ++ heap.getD a1 ""), a1 :: rest)
  | _ => none

/-- The `while remaining_retry > 0` loop of `run` (lines 126-259), recursing
on `remaining_retry`.  An iteration: for o-models, run the merge block
(outside any `try`; an `IndexError` escapes `run`); force the temperature
for the fixed-temperature families; attempt the call.  On success return the
content.  On failure `remaining_retry -= 1`; if it reached `0`, raise the
budget error; else if the completion was content-filtered, raise the filter
error; else advance `current_key_idx` circularly, re-target
`client.api_key`, and retry.  (`self.api_keys` is always a non-empty list
after `__init__`, so the `is not None` guard always holds and the rotated
index is in range; `getD` with a default covers the degenerate empty-list
case the constructor excludes.) -/
def runLoop (model : String) (oracle : Nat → AttemptOutcome) (keys : List String)
    (st : RunState) : Nat → Except RunError String × RunState
  | 0 => (.error .unexpectedEnd, st)
  | r + 1 =>
    match (if isOModel model then mergeO st.heap st.msgs else some (st.heap, st.msgs)) with
    | none => (.error .indexError, st)
    | some (heap', msgs') =>
      let st' : RunState :=
        { st with heap := heap', msgs := msgs',
                  temp := if isFixedTempModel model then 1 else st.temp }
      match oracle st'.log.length with
      | .ok content => (.ok content, { st' with log := st'.log ++ [st'.clientKey] })
      | .err cf =>
        let st'' : RunState := { st' with log := st'.log ++ [st'.clientKey] }
        if r = 0 then (.error .reachedMaxRetries, st'')
        else if cf then (.error .contentFilter, st'')
        else
          let idx := (st''.keyIdx + 1) % keys.length
          runLoop model oracle keys
            { st'' with keyIdx := idx, clientKey := keys.getD idx "" } r

/-- Model of `LLMHandler.run`: the retry loop entered with `remaining_retry = 5`
and an empty attempt log. -/
def run (model : String) (oracle : Nat → AttemptOutcome) (keys : List String)
    (keyIdx : Nat) (clientKey : String) (heap : List String) (msgs : List Nat)
    (temperature : ℚ) : Except RunError String × RunState :=
  runLoop model oracle keys ⟨heap, msgs, temperature, keyIdx, clientKey, []⟩ 5

end LLMHandler

namespace Nuggetizer

/-! Helper lemmas about the retry loops. -/

/-- With the extraction loop never advancing `start`, the extraction window
loop runs forever on a non-empty document list: no amount of fuel makes it
return. -/
lemma createLoop_stuck (oracle : Nat → CreatorOutcome) (w maxN numDocs : Nat)
    (hdocs : 0 < numDocs) :
    ∀ (fuel : Nat) (cur : List String) (log : List ℚ),
      createLoop oracle w maxN numDocs cur log 0 fuel = none := by
  intro fuel
  induction fuel with
  | zero => intro cur log; simp [createLoop, hdocs]
  | succ f ih =>
    intro cur log
    simp only [createLoop, hdocs, if_true]
    exact ih _ _

/-- Running an inner retry loop whose first `j` calls parse-fail and whose
next call parses (extraction): the result replaces the working list by the
parsed list truncated to the cap, after one call at the entry temperature
and `j` escalated retries. -/
lemma createTrials_failsThenParsed (oracle : Nat → CreatorOutcome) (maxN : Nat)
    (xs : List String) :
    ∀ (j : Nat), ∀ (t : Nat) (cur : List String) (temp : ℚ) (log : List ℚ), j < t →
      (∀ i, i < j → oracle (log.length + i) = CreatorOutcome.parseError) →
      oracle (log.length + j) = CreatorOutcome.parsed xs →
      createTrials oracle maxN cur temp log t =
        (xs.take maxN, log ++ temp :: List.replicate j escTemp) := by
  intro j
  induction j with
  | zero =>
    intro t cur temp log ht _ hj
    obtain ⟨t', rfl⟩ : ∃ t', t = t' + 1 := ⟨t - 1, by omega⟩
    simp only [Nat.add_zero] at hj
    simp [createTrials, hj]
  | succ k ih =>
    intro t cur temp log ht hfail hj
    obtain ⟨t', rfl⟩ : ∃ t', t = t' + 1 := ⟨t - 1, by omega⟩
    have h0 := hfail 0 (by omega)
    simp only [Nat.add_zero] at h0
    have ht' : ¬ t' = 0 := by omega
    have hrec := ih t' cur escTemp (log ++ [temp]) (by omega)
      (fun i hi => by
        have e : (log ++ [temp]).length + i = log.length + (i + 1) := by
          simp only [List.length_append, List.length_singleton]; omega
        rw [e]; exact hfail (i + 1) (by omega))
      (by
        have e : (log ++ [temp]).length + k = log.length + (k + 1) := by
          simp only [List.length_append, List.length_singleton]; omega
        rw [e]; exact hj)
    simp only [createTrials, h0, ht', if_false]
    rw [hrec]
    simp [List.replicate_succ]

/-- Scoring retry loop under a full budget of parse failures: every item of
the window is emitted with importance `"okay"`, after one call at the entry
temperature and `t` escalated retries. -/
lemma scoreTrials_allParseFail (oracle : Nat → ScorerOutcome) (win : List String) :
    ∀ (t : Nat), 1 ≤ t → ∀ (st : ScoreState) (temp : ℚ),
      (∀ i, i < t → oracle (st.log.length + i) = ScorerOutcome.parseError) →
      scoreTrials oracle win st temp t =
        ⟨st.out ++ scoreDefaults win, st.log ++ temp :: List.replicate (t - 1) escTemp⟩ := by
  intro t
  induction t with
  | zero => omega
  | succ k ih =>
    intro _ st temp h
    have h0 := h 0 (by omega)
    simp only [Nat.add_zero] at h0
    simp only [scoreTrials, h0]
    rcases Nat.eq_zero_or_pos k with hk | hk
    · subst hk; simp
    · obtain ⟨m, rfl⟩ : ∃ m, k = m + 1 := ⟨k - 1, by omega⟩
      have hrec := ih (by omega) ⟨st.out, st.log ++ [temp]⟩ escTemp (by
        intro i hi
        have e : (st.log ++ [temp]).length + i = st.log.length + (i + 1) := by
          simp only [List.length_append, List.length_singleton]; omega
        rw [e]; exact h (i + 1) (by omega))
      simp only [Nat.succ_ne_zero, if_false]
      rw [hrec]
      simp [List.replicate_succ]

/-- Assignment retry loop under a full budget of parse failures: every item
of the window is emitted with assignment `"failed"` (importance kept), after
one call at the entry temperature and `t` escalated retries. -/
lemma assignTrials_allParseFail (oracle : Nat → AssignerOutcome) (win : List ScoredNugget) :
    ∀ (t : Nat), 1 ≤ t → ∀ (st : AssignState) (temp : ℚ),
      (∀ i, i < t → oracle (st.log.length + i) = AssignerOutcome.parseError) →
      assignTrials oracle win st temp t =
        ⟨st.out ++ assignFailed win, st.log ++ temp :: List.replicate (t - 1) escTemp⟩ := by
  intro t
  induction t with
  | zero => omega
  | succ k ih =>
    intro _ st temp h
    have h0 := h 0 (by omega)
    simp only [Nat.add_zero] at h0
    simp only [assignTrials, h0]
    rcases Nat.eq_zero_or_pos k with hk | hk
    · subst hk; simp
    · obtain ⟨m, rfl⟩ : ∃ m, k = m + 1 := ⟨k - 1, by omega⟩
      have hrec := ih (by omega) ⟨st.out, st.log ++ [temp]⟩ escTemp (by
        intro i hi
        have e : (st.log ++ [temp]).length + i = st.log.length + (i + 1) := by
          simp only [List.length_append, List.length_singleton]; omega
        rw [e]; exact h (i + 1) (by omega))
      simp only [Nat.succ_ne_zero, if_false]
      rw [hrec]
      simp [List.replicate_succ]

/-- Scoring retry loop whose first `j` calls parse-fail and whose next call
parses a list that the pairwise append consumes completely: the window's
entities are appended, after one call at the entry temperature and `j`
escalated retries. -/
lemma scoreTrials_failsThenParsed (oracle : Nat → ScorerOutcome) (win : List String)
    (xs : List PyVal) (hxs : (scoreAppend win xs).2 = true) :
    ∀ (j : Nat), ∀ (t : Nat) (st : ScoreState) (temp : ℚ), j < t →
      (∀ i, i < j → oracle (st.log.length + i) = ScorerOutcome.parseError) →
      oracle (st.log.length + j) = ScorerOutcome.parsed xs →
      scoreTrials oracle win st temp t =
        ⟨st.out ++ (scoreAppend win xs).1, st.log ++ temp :: List.replicate j escTemp⟩ := by
  intro j
  induction j with
  | zero =>
    intro t st temp ht _ hj
    obtain ⟨t', rfl⟩ : ∃ t', t = t' + 1 := ⟨t - 1, by omega⟩
    simp only [Nat.add_zero] at hj
    simp [scoreTrials, hj, hxs]
  | succ k ih =>
    intro t st temp ht hfail hj
    obtain ⟨t', rfl⟩ : ∃ t', t = t' + 1 := ⟨t - 1, by omega⟩
    have h0 := hfail 0 (by omega)
    simp only [Nat.add_zero] at h0
    have ht' : ¬ t' = 0 := by omega
    have hrec := ih t' ⟨st.out, st.log ++ [temp]⟩ escTemp (by omega)
      (fun i hi => by
        have e : (st.log ++ [temp]).length + i = st.log.length + (i + 1) := by
          simp only [List.length_append, List.length_singleton]; omega
        rw [e]; exact hfail (i + 1) (by omega))
      (by
        have e : (st.log ++ [temp]).length + k = st.log.length + (k + 1) := by
          simp only [List.length_append, List.length_singleton]; omega
        rw [e]; exact hj)
    simp only [scoreTrials, h0, ht', if_false]
    rw [hrec]
    simp [List.replicate_succ]

end Nuggetizer

namespace Nuggetizer

/-- Texts of the scoring-phase default emission are the window itself. -/
lemma scoreDefaults_texts (win : List String) :
    (scoreDefaults win).map (·.text) = win := by
  induction win with
  | nil => simp [scoreDefaults]
  | cons t ts ih => simpa [scoreDefaults] using ih

/-- Texts of the assignment `"failed"` emission are the window's texts. -/
lemma assignFailed_texts (win : List ScoredNugget) :
    (assignFailed win).map (·.text) = win.map (·.text) := by
  induction win with
  | nil => simp [assignFailed]
  | cons n ns ih => simpa [assignFailed] using ih

/-- When a parsed score list consists of strings and is at least as long as
the window, the pairwise append completes and yields one entity per window
item, in window order. -/
lemma scoreAppend_ofCovers :
    ∀ (win : List String) (xs : List PyVal),
      (∀ v ∈ xs, ∃ s, v = PyVal.str s) → win.length ≤ xs.length →
      (scoreAppend win xs).2 = true ∧ (scoreAppend win xs).1.map (·.text) = win := by
  intro win
  induction win with
  | nil =>
    intro xs _ _
    cases xs with
    | nil => simp [scoreAppend]
    | cons v vs => simp [scoreAppend]
  | cons t ts ih =>
    intro xs hstr hlen
    cases xs with
    | nil => simp at hlen
    | cons v vs =>
      obtain ⟨s, rfl⟩ := hstr v (List.mem_cons_self v vs)
      have := ih vs (fun u hu => hstr u (List.mem_cons_of_mem _ hu)) (by simpa using hlen)
      simp [scoreAppend, this.1, this.2]

/-- When a parsed assignment list consists of strings and is at least as
long as the window, the pairwise append completes and yields one entity per
window nugget, in window order and with the nugget's text kept. -/
lemma assignAppend_ofCovers :
    ∀ (win : List ScoredNugget) (xs : List PyVal),
      (∀ v ∈ xs, ∃ s, v = PyVal.str s) → win.length ≤ xs.length →
      (assignAppend win xs).2 = true ∧
        (assignAppend win xs).1.map (·.text) = win.map (·.text) := by
  intro win
  induction win with
  | nil =>
    intro xs _ _
    cases xs with
    | nil => simp [assignAppend]
    | cons v vs => simp [assignAppend]
  | cons n ns ih =>
    intro xs hstr hlen
    cases xs with
    | nil => simp at hlen
    | cons v vs =>
      obtain ⟨s, rfl⟩ := hstr v (List.mem_cons_self v vs)
      have := ih vs (fun u hu => hstr u (List.mem_cons_of_mem _ hu)) (by simpa using hlen)
      simp [assignAppend, this.1, this.2]

/-- Under a scorer oracle that never fails generation and whose parsed lists
are strings covering the window, one window's retry loop appends exactly one
entity per window item, in order. -/
lemma scoreTrials_goodOracle (oracle : Nat → ScorerOutcome) (w : Nat)
    (hgen : ∀ n, oracle n ≠ ScorerOutcome.genError)
    (hparse : ∀ n xs, oracle n = ScorerOutcome.parsed xs →
      (∀ v ∈ xs, ∃ s, v = PyVal.str s) ∧ w ≤ xs.length) :
    ∀ (t : Nat), 1 ≤ t → ∀ (win : List String), win.length ≤ w → ∀ (st : ScoreState) (temp : ℚ),
      ∃ adds lg, scoreTrials oracle win st temp t = ⟨st.out ++ adds, st.log ++ lg⟩ ∧
        adds.map (·.text) = win := by
  intro t
  induction t with
  | zero => omega
  | succ k ih =>
    intro _ win hwin st temp
    rcases hor : oracle st.log.length with _ | _ | xs
    · exact absurd hor (hgen _)
    · rcases Nat.eq_zero_or_pos k with hk | hk
      · subst hk
        exact ⟨scoreDefaults win, [temp], by simp [scoreTrials, hor], scoreDefaults_texts win⟩
      · obtain ⟨adds, lg, heq, hmap⟩ := ih (by omega) win hwin ⟨st.out, st.log ++ [temp]⟩ escTemp
        refine ⟨adds, [temp] ++ lg, ?_, hmap⟩
        have hk' : ¬ k = 0 := by omega
        simp only [scoreTrials, hor, hk', if_false]
        rw [heq]
        simp
    · obtain ⟨hstr, hlen⟩ := hparse _ _ hor
      have hc := scoreAppend_ofCovers win xs hstr (le_trans hwin hlen)
      refine ⟨(scoreAppend win xs).1, [temp], ?_, hc.2⟩
      simp [scoreTrials, hor, hc.1]

/-- Under an assigner oracle whose parsed lists are strings covering the
window (generation failures allowed — they emit the `"failed"` entities),
one window's retry loop appends exactly one entity per window nugget, in
order and keeping each nugget's text. -/
lemma assignTrials_goodOracle (oracle : Nat → AssignerOutcome) (w : Nat)
    (hparse : ∀ n xs, oracle n = AssignerOutcome.parsed xs →
      (∀ v ∈ xs, ∃ s, v = PyVal.str s) ∧ w ≤ xs.length) :
    ∀ (t : Nat), 1 ≤ t → ∀ (win : List ScoredNugget), win.length ≤ w →
      ∀ (st : AssignState) (temp : ℚ),
      ∃ adds lg, assignTrials oracle win st temp t = ⟨st.out ++ adds, st.log ++ lg⟩ ∧
        adds.map (·.text) = win.map (·.text) := by
  intro t
  induction t with
  | zero => omega
  | succ k ih =>
    intro _ win hwin st temp
    rcases hor : oracle st.log.length with _ | _ | xs
    · exact ⟨assignFailed win, [temp], by simp [assignTrials, hor], assignFailed_texts win⟩
    · rcases Nat.eq_zero_or_pos k with hk | hk
      · subst hk
        exact ⟨assignFailed win, [temp], by simp [assignTrials, hor], assignFailed_texts win⟩
      · obtain ⟨adds, lg, heq, hmap⟩ := ih (by omega) win hwin ⟨st.out, st.log ++ [temp]⟩ escTemp
        refine ⟨adds, [temp] ++ lg, ?_, hmap⟩
        have hk' : ¬ k = 0 := by omega
        simp only [assignTrials, hor, hk', if_false]
        rw [heq]
        simp
    · obtain ⟨hstr, hlen⟩ := hparse _ _ hor
      have hc := assignAppend_ofCovers win xs hstr (le_trans hwin hlen)
      refine ⟨(assignAppend win xs).1, [temp], ?_, hc.2⟩
      simp [assignTrials, hor, hc.1]

end Nuggetizer

namespace Nuggetizer

/-- Window-loop version of `scoreTrials_goodOracle`: under a scorer oracle
that never fails generation and always parses to covering string lists, the
scoring phase emits exactly one entity per input nugget, in input order. -/
lemma scoreLoop_goodOracle (oracle : Nat → ScorerOutcome) (w : Nat) (hw : 1 ≤ w)
    (hgen : ∀ n, oracle n ≠ ScorerOutcome.genError)
    (hparse : ∀ n xs, oracle n = ScorerOutcome.parsed xs →
      (∀ v ∈ xs, ∃ s, v = PyVal.str s) ∧ w ≤ xs.length) :
    ∀ (fuel : Nat) (rest : List String) (st : ScoreState), rest.length ≤ fuel →
      ∃ adds lg, scoreLoop oracle w rest st fuel = some ⟨st.out ++ adds, st.log ++ lg⟩ ∧
        adds.map (·.text) = rest := by
  intro fuel
  induction fuel with
  | zero =>
    intro rest st hlen
    have : rest = [] := List.eq_nil_of_length_eq_zero (by omega)
    subst this
    exact ⟨[], [], by simp [scoreLoop], by simp⟩
  | succ f ih =>
    intro rest st hlen
    cases rest with
    | nil => exact ⟨[], [], by simp [scoreLoop], by simp⟩
    | cons x xs =>
      obtain ⟨adds1, lg1, heq1, hmap1⟩ :=
        scoreTrials_goodOracle oracle w hgen hparse 500 (by omega)
          ((x :: xs).take w) (List.length_take_le _ _) st 0
      obtain ⟨adds2, lg2, heq2, hmap2⟩ := ih ((x :: xs).drop w)
        ⟨st.out ++ adds1, st.log ++ lg1⟩ (by
          rw [List.length_drop, List.length_cons]
          simp only [List.length_cons] at hlen
          omega)
      refine ⟨adds1 ++ adds2, lg1 ++ lg2, ?_, ?_⟩
      · simp only [scoreLoop]
        rw [heq1, heq2]
        simp
      · rw [List.map_append, hmap1, hmap2, List.take_append_drop]

/-- Window-loop version of `assignTrials_goodOracle`: under an assigner
oracle whose parsed lists are covering string lists (generation failures
allowed), `assign`'s loop emits exactly one entity per input nugget, in
input order and keeping each nugget's text. -/
lemma assignLoop_goodOracle (oracle : Nat → AssignerOutcome) (w : Nat) (hw : 1 ≤ w)
    (hparse : ∀ n xs, oracle n = AssignerOutcome.parsed xs →
      (∀ v ∈ xs, ∃ s, v = PyVal.str s) ∧ w ≤ xs.length) :
    ∀ (fuel : Nat) (rest : List ScoredNugget) (st : AssignState), rest.length ≤ fuel →
      ∃ adds lg, assignLoop oracle w rest st fuel = some ⟨st.out ++ adds, st.log ++ lg⟩ ∧
        adds.map (·.text) = rest.map (·.text) := by
  intro fuel
  induction fuel with
  | zero =>
    intro rest st hlen
    have : rest = [] := List.eq_nil_of_length_eq_zero (by omega)
    subst this
    exact ⟨[], [], by simp [assignLoop], by simp⟩
  | succ f ih =>
    intro rest st hlen
    cases rest with
    | nil => exact ⟨[], [], by simp [assignLoop], by simp⟩
    | cons x xs =>
      obtain ⟨adds1, lg1, heq1, hmap1⟩ :=
        assignTrials_goodOracle oracle w hparse 500 (by omega)
          ((x :: xs).take w) (List.length_take_le _ _) st 0
      obtain ⟨adds2, lg2, heq2, hmap2⟩ := ih ((x :: xs).drop w)
        ⟨st.out ++ adds1, st.log ++ lg1⟩ (by
          rw [List.length_drop, List.length_cons]
          simp only [List.length_cons] at hlen
          omega)
      refine ⟨adds1 ++ adds2, lg1 ++ lg2, ?_, ?_⟩
      · simp only [assignLoop]
        rw [heq1, heq2]
        simp
      · rw [List.map_append, hmap1, hmap2, ← List.map_append, List.take_append_drop]

/-- The assignment retry loop never shortens the call log. -/
lemma assignTrials_log_mono (oracle : Nat → AssignerOutcome) (win : List ScoredNugget) :
    ∀ (t : Nat) (st : AssignState) (temp : ℚ),
      st.log.length ≤ (assignTrials oracle win st temp t).log.length := by
  intro t
  induction t with
  | zero => intro st temp; simp [assignTrials]
  | succ k ih =>
    intro st temp
    rcases hor : oracle st.log.length with _ | _ | xs
    · simp [assignTrials, hor]
    · rcases Nat.eq_zero_or_pos k with hk | hk
      · subst hk; simp [assignTrials, hor]
      · have hk' : ¬ k = 0 := by omega
        simp only [assignTrials, hor, hk', if_false]
        have := ih ⟨st.out, st.log ++ [temp]⟩ escTemp
        simp only [List.length_append, List.length_singleton] at this
        omega
    · rcases hr : (assignAppend win xs).2 with _ | _
      · rcases Nat.eq_zero_or_pos k with hk | hk
        · subst hk; simp [assignTrials, hor, hr]
        · have hk' : ¬ k = 0 := by omega
          simp only [assignTrials, hor, hr, Bool.false_eq_true, hk', if_false]
          have := ih ⟨st.out ++ (assignAppend win xs).1, st.log ++ [temp]⟩ escTemp
          simp only [List.length_append, List.length_singleton] at this
          omega
      · simp [assignTrials, hor, hr]

/-- With a positive budget, the assignment retry loop makes at least one
generation call. -/
lemma assignTrials_log_grows (oracle : Nat → AssignerOutcome) (win : List ScoredNugget)
    (t : Nat) (ht : 1 ≤ t) (st : AssignState) (temp : ℚ) :
    st.log.length + 1 ≤ (assignTrials oracle win st temp t).log.length := by
  obtain ⟨k, rfl⟩ : ∃ k, t = k + 1 := ⟨t - 1, by omega⟩
  rcases hor : oracle st.log.length with _ | _ | xs
  · simp [assignTrials, hor]
  · rcases Nat.eq_zero_or_pos k with hk | hk
    · subst hk; simp [assignTrials, hor]
    · have hk' : ¬ k = 0 := by omega
      simp only [assignTrials, hor, hk', if_false]
      have := assignTrials_log_mono oracle win k ⟨st.out, st.log ++ [temp]⟩ escTemp
      simp only [List.length_append, List.length_singleton] at this
      omega
  · rcases hr : (assignAppend win xs).2 with _ | _
    · rcases Nat.eq_zero_or_pos k with hk | hk
      · subst hk; simp [assignTrials, hor, hr]
      · have hk' : ¬ k = 0 := by omega
        simp only [assignTrials, hor, hr, Bool.false_eq_true, hk', if_false]
        have := assignTrials_log_mono oracle win k
          ⟨st.out ++ (assignAppend win xs).1, st.log ++ [temp]⟩ escTemp
        simp only [List.length_append, List.length_singleton] at this
        omega
    · simp [assignTrials, hor, hr]

/-- The assignment window loop never shortens the call log. -/
lemma assignLoop_log_mono (oracle : Nat → AssignerOutcome) (w : Nat) :
    ∀ (fuel : Nat) (rest : List ScoredNugget) (st st' : AssignState),
      assignLoop oracle w rest st fuel = some st' →
      st.log.length ≤ st'.log.length := by
  intro fuel
  induction fuel with
  | zero =>
    intro rest st st' h
    cases rest with
    | nil =>
      simp only [assignLoop, Option.some_inj] at h
      subst h
      exact Nat.le_refl _
    | cons x xs => simp [assignLoop] at h
  | succ f ih =>
    intro rest st st' h
    cases rest with
    | nil =>
      simp only [assignLoop, Option.some_inj] at h
      subst h
      exact Nat.le_refl _
    | cons x xs =>
      simp only [assignLoop] at h
      have h1 := assignTrials_log_mono oracle ((x :: xs).take w) 500 st 0
      have h2 := ih _ _ _ h
      omega

end Nuggetizer

namespace LLMHandler

/-- When every remaining attempt fails with a non-content-filter error, the
retry loop consumes its whole budget and raises the budget-exhaustion error,
having made exactly one attempt per budget unit. -/
lemma runLoop_allErrFalse (model : String) (oracle : Nat → AttemptOutcome)
    (keys : List String) (hm : isOModel model = false) :
    ∀ (r : Nat), 1 ≤ r → ∀ (st : RunState),
      (∀ i, i < r → oracle (st.log.length + i) = AttemptOutcome.err false) →
      ∃ st', runLoop model oracle keys st r = (Except.error RunError.reachedMaxRetries, st') ∧
        st'.log.length = st.log.length + r := by
  intro r
  induction r with
  | zero => omega
  | succ k ih =>
    intro _ st h
    have h0 := h 0 (by omega)
    simp only [Nat.add_zero] at h0
    rcases Nat.eq_zero_or_pos k with hk | hk
    · subst hk
      refine ⟨{ st with temp := if isFixedTempModel model then 1 else st.temp,
                        log := st.log ++ [st.clientKey] }, ?_, ?_⟩
      · simp [runLoop, hm, h0]
      · simp
    · have hk' : ¬ k = 0 := by omega
      obtain ⟨st', heq, hlen⟩ := ih (by omega)
        { st with temp := if isFixedTempModel model then 1 else st.temp,
                  log := st.log ++ [st.clientKey],
                  keyIdx := (st.keyIdx + 1) % keys.length,
                  clientKey := keys.getD ((st.keyIdx + 1) % keys.length) "" }
        (by
          intro i hi
          simp only [List.length_append, List.length_singleton]
          have e : st.log.length + 1 + i = st.log.length + (i + 1) := by omega
          rw [e]
          exact h (i + 1) (by omega))
      refine ⟨st', ?_, ?_⟩
      · simp only [runLoop, hm, Bool.false_eq_true, if_false, h0, hk']
        convert heq using 2
      · simp only [List.length_append, List.length_singleton] at hlen
        omega

end LLMHandler

/-! Claim theorems. -/

/-- C1: the claim says every stage operation terminates; the code does not.
The extraction window loop of `Nuggetizer.create` never advances `start`
(there is no `start = end` before line 169, unlike the scoring and
assignment loops at lines 253 and 351), so for every request with a
non-empty document list `create` reprocesses the first window forever, no
matter how the LLM behaves: no fuel bound makes the model return. -/
theorem create_diverges_on_nonempty_documents
    (cOracle : Nat → Nuggetizer.CreatorOutcome) (sOracle : Nat → Nuggetizer.ScorerOutcome)
    (cw sw maxN numDocs fuel : Nat) (hdocs : 0 < numDocs) :
    Nuggetizer.create cOracle sOracle cw sw maxN numDocs fuel = none := by
  unfold Nuggetizer.create
  rw [Nuggetizer.createLoop_stuck cOracle cw maxN numDocs hdocs fuel [] []]

/-- Witness for C1 at one document with an always-well-behaved LLM. -/
theorem create_diverges_on_nonempty_documents_witness :
    0 < 1 ∧
    Nuggetizer.create (fun _ => Nuggetizer.CreatorOutcome.parsed ["a"])
      (fun _ => Nuggetizer.ScorerOutcome.parsed [PyVal.str "vital"]) 10 10 30 1 100 = none :=
  ⟨by decide,
   create_diverges_on_nonempty_documents _ _ 10 10 30 1 100 (by decide)⟩

/-- C2 counterexample: a one-nugget batch whose scoring window resolves by a
transport-fatal generation failure.  The `except` branch around the scorer
call (lines 195-197) just breaks, emitting nothing, so the scoring phase
returns zero outputs for one input — refuting "never fewer outputs than
inputs" under the claim's own "transport-fatal generation failure" outcome.
(The call log shows the single failed call, at temperature 0.) -/
theorem scoring_outputs_fewer_than_inputs :
    Nuggetizer.scoreLoop (fun _ => Nuggetizer.ScorerOutcome.genError) 10 ["a"]
      ⟨[], []⟩ 1 = some ⟨[], [0]⟩ := by decide

/-- C2 amended: one output per input item, in input order, holds for
`assign` whenever every parsed response is a list of strings at least as
long as the window (windows may resolve by parse success, transport-fatal
failure, or exhausted budget), and for the scoring phase of `create` under
the same proviso provided additionally no generation call fails fatally —
a transport-fatal scorer call emits nothing for its window, and a parsed
list shorter than its window emits only as many entities as it has labels
(the `zip` truncates). -/
theorem one_output_per_input_amended :
    (∀ (oracle : Nat → Nuggetizer.ScorerOutcome) (w : Nat) (nuggets : List String) (fuel : Nat),
      1 ≤ w → nuggets.length ≤ fuel →
      (∀ n, oracle n ≠ Nuggetizer.ScorerOutcome.genError) →
      (∀ n xs, oracle n = Nuggetizer.ScorerOutcome.parsed xs →
        (∀ v ∈ xs, ∃ s, v = PyVal.str s) ∧ w ≤ xs.length) →
      ∃ st, Nuggetizer.scoreLoop oracle w nuggets ⟨[], []⟩ fuel = some st ∧
        st.out.map (·.text) = nuggets) ∧
    (∀ (q c : String) (oracle : Nat → Nuggetizer.AssignerOutcome) (w : Nat)
        (nuggets : List ScoredNugget) (fuel : Nat),
      1 ≤ w → nuggets.length ≤ fuel →
      (∀ n xs, oracle n = Nuggetizer.AssignerOutcome.parsed xs →
        (∀ v ∈ xs, ∃ s, v = PyVal.str s) ∧ w ≤ xs.length) →
      ∃ st, Nuggetizer.assign q c oracle w nuggets fuel = some st ∧
        st.out.map (·.text) = nuggets.map (·.text)) := by
  constructor
  · intro oracle w nuggets fuel hw hfuel hgen hparse
    obtain ⟨adds, lg, heq, hmap⟩ :=
      Nuggetizer.scoreLoop_goodOracle oracle w hw hgen hparse fuel nuggets ⟨[], []⟩ hfuel
    exact ⟨⟨adds, lg⟩, by simpa using heq, hmap⟩
  · intro q c oracle w nuggets fuel hw hfuel hparse
    obtain ⟨adds, lg, heq, hmap⟩ :=
      Nuggetizer.assignLoop_goodOracle oracle w hw hparse fuel nuggets ⟨[], []⟩ hfuel
    exact ⟨⟨adds, lg⟩, by simpa [Nuggetizer.assign] using heq, hmap⟩

/-- Witness for the amended C2 at singleton batches and covering string
responses. -/
theorem one_output_per_input_amended_witness :
    (∃ st, Nuggetizer.scoreLoop (fun _ => Nuggetizer.ScorerOutcome.parsed [PyVal.str "vital"])
      1 ["a"] ⟨[], []⟩ 1 = some st ∧ st.out.map (·.text) = ["a"]) ∧
    (∃ st, Nuggetizer.assign "q" "ctx"
      (fun _ => Nuggetizer.AssignerOutcome.parsed [PyVal.str "support"])
      1 [⟨"a", "vital"⟩] 1 = some st ∧
      st.out.map (·.text) = ([⟨"a", "vital"⟩] : List ScoredNugget).map (·.text)) :=
  ⟨one_output_per_input_amended.1 _ 1 ["a"] 1 (by decide) (by decide)
    (fun n => by decide)
    (fun n xs h => by
      injection h with h'
      subst h'
      refine ⟨?_, by decide⟩
      intro v hv
      simp only [List.mem_singleton] at hv
      exact ⟨"vital", hv⟩),
   one_output_per_input_amended.2 "q" "ctx" _ 1 [⟨"a", "vital"⟩] 1 (by decide) (by decide)
    (fun n xs h => by
      injection h with h'
      subst h'
      refine ⟨?_, by decide⟩
      intro v hv
      simp only [List.mem_singleton] at hv
      exact ⟨"support", hv⟩)⟩

/-- C3 counterexample: `assign` with an empty target passage does not
short-circuit.  With one nugget and an assigner response answering
`['SUPPORT']`, the model of `assign` issues one generation call (log length
1, not 0) and labels the nugget `"support"` (the lower-cased response), not
`"not_support"`: the source (lines 257-295) contains no test on `context`.
-/
theorem assign_empty_context_one_call_support :
    Nuggetizer.assign "q" "" (fun _ => Nuggetizer.AssignerOutcome.parsed [PyVal.str "SUPPORT"])
      10 [⟨"t", "vital"⟩] 1 = some ⟨[⟨"t", "vital", "support"⟩], [0]⟩ := by decide

/-- C3 amended: calling `assign` with an empty target passage does not
short-circuit: for every non-empty nugget list that `assign` finishes, at
least one generation call was issued (labels come from the parsed responses
or the `"failed"` fallbacks, never from an empty-passage special case). -/
theorem assign_empty_context_calls (q : String) (oracle : Nat → Nuggetizer.AssignerOutcome)
    (w : Nat) (nuggets : List ScoredNugget) (fuel : Nat) (st : Nuggetizer.AssignState)
    (hne : nuggets ≠ []) (h : Nuggetizer.assign q "" oracle w nuggets fuel = some st) :
    st.log ≠ [] := by
  cases nuggets with
  | nil => exact absurd rfl hne
  | cons x xs =>
    cases fuel with
    | zero => simp [Nuggetizer.assign, Nuggetizer.assignLoop] at h
    | succ f =>
      simp only [Nuggetizer.assign, Nuggetizer.assignLoop] at h
      have h1 := Nuggetizer.assignTrials_log_grows oracle ((x :: xs).take w) 500 (by omega)
        ⟨[], []⟩ 0
      have h2 := Nuggetizer.assignLoop_log_mono oracle w f _ _ _ h
      intro hnil
      rw [hnil] at h2
      simp only [List.length_nil] at h2
      simp only [List.length_nil] at h1
      omega

/-- Witness for the amended C3: a finished empty-passage assignment whose
log is non-empty. -/
theorem assign_empty_context_calls_witness :
    Nuggetizer.assign "q" "" (fun _ => Nuggetizer.AssignerOutcome.parsed [PyVal.str "not_support"])
      1 [⟨"t", "vital"⟩] 1 = some ⟨[⟨"t", "vital", "not_support"⟩], [0]⟩ ∧
    (⟨[⟨"t", "vital", "not_support"⟩], [0]⟩ : Nuggetizer.AssignState).log ≠ [] :=
  ⟨by decide,
   assign_empty_context_calls "q"
     (fun _ => Nuggetizer.AssignerOutcome.parsed [PyVal.str "not_support"]) 1
     [⟨"t", "vital"⟩] 1 ⟨[⟨"t", "vital", "not_support"⟩], [0]⟩ (by decide) (by decide)⟩

/-- C4: when a window's parse-retry budget (500) reaches zero, every item of
the window is emitted with the stage default: the scoring phase emits
importance `"okay"` per nugget (lines 234-252) and assignment emits
assignment `"failed"` per nugget with its importance kept (lines 330-350).
At exhaustion a response was obtained on each of the 500 attempts (a parse
failure presupposes a returned response; a generation failure instead
breaks the window immediately), so the realised arm of the claim's
"not_support or failed, depending on whether any response was ever
obtained" is always `"failed"`; `"not_support"` never arises from
exhaustion.  The log shows the 500 calls: the first at temperature 0, the
499 retries at the escalated 0.2. -/
theorem exhausted_budget_stage_defaults :
    (∀ (oracle : Nat → Nuggetizer.ScorerOutcome) (win : List String)
        (st : Nuggetizer.ScoreState),
      (∀ i, i < 500 → oracle (st.log.length + i) = Nuggetizer.ScorerOutcome.parseError) →
      Nuggetizer.scoreTrials oracle win st 0 500 =
        ⟨st.out ++ Nuggetizer.scoreDefaults win,
         st.log ++ 0 :: List.replicate 499 Nuggetizer.escTemp⟩) ∧
    (∀ (oracle : Nat → Nuggetizer.AssignerOutcome) (win : List ScoredNugget)
        (st : Nuggetizer.AssignState),
      (∀ i, i < 500 → oracle (st.log.length + i) = Nuggetizer.AssignerOutcome.parseError) →
      Nuggetizer.assignTrials oracle win st 0 500 =
        ⟨st.out ++ Nuggetizer.assignFailed win,
         st.log ++ 0 :: List.replicate 499 Nuggetizer.escTemp⟩) := by
  constructor
  · intro oracle win st h
    have h' := Nuggetizer.scoreTrials_allParseFail oracle win 500 (by omega) st 0 h
    norm_num at h'
    exact h'
  · intro oracle win st h
    have h' := Nuggetizer.assignTrials_allParseFail oracle win 500 (by omega) st 0 h
    norm_num at h'
    exact h'

/-- Witness for C4 at a one-item window under an always-parse-failing
oracle. -/
theorem exhausted_budget_stage_defaults_witness :
    Nuggetizer.scoreTrials (fun _ => Nuggetizer.ScorerOutcome.parseError) ["a"] ⟨[], []⟩ 0 500 =
      ⟨[] ++ Nuggetizer.scoreDefaults ["a"], [] ++ 0 :: List.replicate 499 Nuggetizer.escTemp⟩ ∧
    Nuggetizer.assignTrials (fun _ => Nuggetizer.AssignerOutcome.parseError)
      [⟨"a", "vital"⟩] ⟨[], []⟩ 0 500 =
      ⟨[] ++ Nuggetizer.assignFailed [⟨"a", "vital"⟩],
       [] ++ 0 :: List.replicate 499 Nuggetizer.escTemp⟩ :=
  ⟨exhausted_budget_stage_defaults.1 _ ["a"] ⟨[], []⟩ (fun i _ => rfl),
   exhausted_budget_stage_defaults.2 _ [⟨"a", "vital"⟩] ⟨[], []⟩ (fun i _ => rfl)⟩

/-- C8: whenever an extraction window's retry loop ends in a parse success
(after any number `j < 500` of parse failures), the working claim list
becomes exactly the parsed output truncated to `creator_max_nuggets` —
`current_nuggets = nugget_texts[:self.creator_max_nuggets]` (line 161) —
for every previously carried list `cur` (so it replaces, never appends to
or unions with, the list from earlier windows), its length never exceeds
the cap, and the kept entries are the earliest ones (the truncation is a
prefix: re-appending the dropped tail restores the parsed list). -/
theorem extraction_replaces_with_cap (oracle : Nat → Nuggetizer.CreatorOutcome)
    (maxN : Nat) (cur : List String) (log : List ℚ) (xs : List String) (j : Nat)
    (hj : j < 500)
    (hfail : ∀ i, i < j → oracle (log.length + i) = Nuggetizer.CreatorOutcome.parseError)
    (hsucc : oracle (log.length + j) = Nuggetizer.CreatorOutcome.parsed xs) :
    Nuggetizer.createTrials oracle maxN cur 0 log 500 =
      (xs.take maxN, log ++ 0 :: List.replicate j Nuggetizer.escTemp) ∧
    (xs.take maxN).length ≤ maxN ∧ xs.take maxN ++ xs.drop maxN = xs :=
  ⟨Nuggetizer.createTrials_failsThenParsed oracle maxN xs j 500 cur 0 log hj hfail hsucc,
   by simpa using List.length_take_le maxN xs,
   List.take_append_drop maxN xs⟩

/-- Witness for C8: a second-window run carrying one old claim, one parse
failure, then a three-element parse truncated to a cap of 2. -/
theorem extraction_replaces_with_cap_witness :
    (1 : Nat) < 500 ∧
    (Nuggetizer.createTrials
        (fun n => if n = 1 then Nuggetizer.CreatorOutcome.parsed ["a", "b", "c"]
                  else Nuggetizer.CreatorOutcome.parseError)
        2 ["old"] 0 [] 500 =
        (["a", "b", "c"].take 2, [] ++ 0 :: List.replicate 1 Nuggetizer.escTemp) ∧
      (["a", "b", "c"].take 2).length ≤ 2 ∧
      ["a", "b", "c"].take 2 ++ ["a", "b", "c"].drop 2 = ["a", "b", "c"]) :=
  ⟨by decide,
   extraction_replaces_with_cap _ 2 ["old"] [] ["a", "b", "c"] 1 (by decide)
     (fun i hi => by
       have : i = 0 := by omega
       subst this
       rfl)
     rfl⟩

/-- C9: a scoring window's generation starts at temperature 0 with a
parse-retry budget of 500; each of the `j` consecutive parse failures
(`j < 500`) decrements the budget, raises the temperature to the fixed
0.2, and retries the same window with another generation call — the
window's call log is one call at 0 followed by `j` calls at 0.2, and the
eventual parse success still emits this same window's entities. -/
theorem parse_retry_escalation (oracle : Nat → Nuggetizer.ScorerOutcome)
    (win : List String) (xs : List PyVal) (st : Nuggetizer.ScoreState) (j : Nat)
    (hj : j < 500)
    (hfail : ∀ i, i < j → oracle (st.log.length + i) = Nuggetizer.ScorerOutcome.parseError)
    (hsucc : oracle (st.log.length + j) = Nuggetizer.ScorerOutcome.parsed xs)
    (hxs : (Nuggetizer.scoreAppend win xs).2 = true) :
    Nuggetizer.scoreTrials oracle win st 0 500 =
      ⟨st.out ++ (Nuggetizer.scoreAppend win xs).1,
       st.log ++ 0 :: List.replicate j Nuggetizer.escTemp⟩ :=
  Nuggetizer.scoreTrials_failsThenParsed oracle win xs hxs j 500 st 0 hj hfail hsucc

/-- Witness for C9: one parse failure, then a parse success, for a
one-nugget window: two calls, at temperatures 0 and 0.2. -/
theorem parse_retry_escalation_witness :
    (1 : Nat) < 500 ∧
    Nuggetizer.scoreTrials
      (fun n => if n = 1 then Nuggetizer.ScorerOutcome.parsed [PyVal.str "vital"]
                else Nuggetizer.ScorerOutcome.parseError)
      ["a"] ⟨[], []⟩ 0 500 =
      ⟨[] ++ (Nuggetizer.scoreAppend ["a"] [PyVal.str "vital"]).1,
       [] ++ 0 :: List.replicate 1 Nuggetizer.escTemp⟩ :=
  ⟨by decide,
   parse_retry_escalation _ ["a"] [PyVal.str "vital"] ⟨[], []⟩ 1 (by decide)
     (fun i hi => by
       have : i = 0 := by omega
       subst this
       rfl)
     rfl
     (by decide)⟩

/-- C5 counterexample: a content-filter block is *not* always fatal-as-such.
With transport failures on the first four attempts and a content-filter
block on the fifth, `run` raises the budget-exhaustion `RuntimeError` — the
`remaining_retry <= 0` check (lines 244-246) fires before the
content-filter check (lines 247-253) — not the distinct content-filter
`ValueError`.  So "regardless of how many retries remain" fails: on the
last budgeted attempt the raised error is exactly the transport-retry
error. -/
theorem content_filter_last_attempt_cex :
    (LLMHandler.run "gpt-4o"
      (fun n => if n = 4 then LLMHandler.AttemptOutcome.err true
                else LLMHandler.AttemptOutcome.err false)
      ["k1"] 0 "k1" [] [] 0).1 = Except.error LLMHandler.RunError.reachedMaxRetries := rfl

/-- C5 amended: a content-filter-blocked failing attempt raises the
dedicated content-filter error — a kind distinct from the transport-retry
budget error — with no further attempt (the log grows by exactly the one
failed attempt) and no credential rotation (`keyIdx` and the client's
active credential are unchanged), provided at least one retry remains after
the decrement, i.e. on attempts 1 through 4 of the 5-attempt budget; on the
fifth attempt the budget-exhaustion error is raised instead. -/
theorem content_filter_fatal_amended (model : String)
    (oracle : Nat → LLMHandler.AttemptOutcome) (keys : List String)
    (st : LLMHandler.RunState) (r : Nat)
    (hm : LLMHandler.isOModel model = false) (hr : 1 ≤ r)
    (hcf : oracle st.log.length = LLMHandler.AttemptOutcome.err true) :
    LLMHandler.runLoop model oracle keys st (r + 1) =
      (Except.error LLMHandler.RunError.contentFilter,
       { st with temp := if LLMHandler.isFixedTempModel model then 1 else st.temp,
                 log := st.log ++ [st.clientKey] }) := by
  have hr' : ¬ r = 0 := by omega
  simp [LLMHandler.runLoop, hm, hcf, hr']

/-- Witness for the amended C5: a content-filter block on the first attempt
with four retries left. -/
theorem content_filter_fatal_amended_witness :
    LLMHandler.isOModel "gpt-4o" = false ∧ (1 : Nat) ≤ 4 ∧
    LLMHandler.runLoop "gpt-4o" (fun _ => LLMHandler.AttemptOutcome.err true) ["k1", "k2"]
      ⟨["s", "u"], [0, 1], 0, 0, "k1", []⟩ 5 =
      (Except.error LLMHandler.RunError.contentFilter,
       ⟨["s", "u"], [0, 1], 0, 0, "k1", ["k1"]⟩) :=
  ⟨by decide, by decide,
   content_filter_fatal_amended "gpt-4o" _ ["k1", "k2"]
     ⟨["s", "u"], [0, 1], 0, 0, "k1", []⟩ 4 (by decide) (by decide) rfl⟩

/-- C6: on a transport/provider failure of an attempt (with retries left and
no content filter), the credential index advances circularly and the
client's active credential is re-targeted before the retry: with a
2-element credential list, a failure on the first call and a success on the
second, the second attempt is made with the second credential (the attempt
log records the credential each attempt used) and `current_key_idx` ends at
1. -/
theorem credential_rotation_on_failure (model : String)
    (oracle : Nat → LLMHandler.AttemptOutcome) (k1 k2 c : String)
    (st : LLMHandler.RunState) (r : Nat)
    (hm : LLMHandler.isOModel model = false)
    (hidx : st.keyIdx = 0) (hkey : st.clientKey = k1) (hlog : st.log = [])
    (h0 : oracle 0 = LLMHandler.AttemptOutcome.err false)
    (h1 : oracle 1 = LLMHandler.AttemptOutcome.ok c) :
    LLMHandler.runLoop model oracle [k1, k2] st (r + 2) =
      (Except.ok c,
       { st with temp := if LLMHandler.isFixedTempModel model then 1 else st.temp,
                 keyIdx := 1, clientKey := k2, log := [k1, k2] }) := by
  rcases hf : LLMHandler.isFixedTempModel model with _ | _
  · simp [LLMHandler.runLoop, hm, hidx, hkey, hlog, h0, h1, List.getD, hf]
  · simp [LLMHandler.runLoop, hm, hidx, hkey, hlog, h0, h1, List.getD, hf]

/-- Witness for C6: concrete 2-element credential list, transport failure
then success. -/
theorem credential_rotation_on_failure_witness :
    LLMHandler.isOModel "gpt-4o" = false ∧
    LLMHandler.runLoop "gpt-4o"
      (fun n => if n = 0 then LLMHandler.AttemptOutcome.err false
                else LLMHandler.AttemptOutcome.ok "hi") ["a", "b"]
      ⟨["s"], [0], 0, 0, "a", []⟩ 5 =
      (Except.ok "hi", ⟨["s"], [0], 0, 1, "b", ["a", "b"]⟩) :=
  ⟨by decide,
   credential_rotation_on_failure "gpt-4o" _ "a" "b" "hi" ⟨["s"], [0], 0, 0, "a", []⟩ 3
     (by decide) rfl rfl rfl rfl rfl⟩

/-- C7: `LLMHandler.run` enters its loop with `remaining_retry = 5`; five
consecutive transport failures consume the budget (exactly five attempts
are made — the log has length 5) and raise the budget-exhaustion
`RuntimeError` (lines 244-246), an error kind distinct from the
content-filter `ValueError` and — being raised out of `run` itself — from a
parse failure, which arises only later, inside the stage's second `try`
block around `ast.literal_eval`, and is modelled as a separate
`parseError` outcome rather than an error of `run`. -/
theorem retry_budget_five_attempts (model : String)
    (oracle : Nat → LLMHandler.AttemptOutcome) (keys : List String) (keyIdx : Nat)
    (clientKey : String) (heap : List String) (msgs : List Nat) (temperature : ℚ)
    (hm : LLMHandler.isOModel model = false)
    (h : ∀ i, i < 5 → oracle i = LLMHandler.AttemptOutcome.err false) :
    (LLMHandler.run model oracle keys keyIdx clientKey heap msgs temperature).1 =
      Except.error LLMHandler.RunError.reachedMaxRetries ∧
    (LLMHandler.run model oracle keys keyIdx clientKey heap msgs temperature).2.log.length = 5 ∧
    LLMHandler.RunError.reachedMaxRetries ≠ LLMHandler.RunError.contentFilter := by
  obtain ⟨st', heq, hlen⟩ := LLMHandler.runLoop_allErrFalse model oracle keys hm 5 (by omega)
    ⟨heap, msgs, temperature, keyIdx, clientKey, []⟩ (by
      intro i hi
      simpa using h i hi)
  refine ⟨?_, ?_, by decide⟩
  · unfold LLMHandler.run
    rw [heq]
  · unfold LLMHandler.run
    rw [heq]
    simpa using hlen

/-- Witness for C7: five consecutive transport failures on a single-key
client. -/
theorem retry_budget_five_attempts_witness :
    LLMHandler.isOModel "gpt-4o" = false ∧
    ((LLMHandler.run "gpt-4o" (fun _ => LLMHandler.AttemptOutcome.err false)
        ["k"] 0 "k" [] [] 0).1 = Except.error LLMHandler.RunError.reachedMaxRetries ∧
     (LLMHandler.run "gpt-4o" (fun _ => LLMHandler.AttemptOutcome.err false)
        ["k"] 0 "k" [] [] 0).2.log.length = 5 ∧
     LLMHandler.RunError.reachedMaxRetries ≠ LLMHandler.RunError.contentFilter) :=
  ⟨by decide,
   retry_budget_five_attempts "gpt-4o" _ ["k"] 0 "k" [] [] 0 (by decide) (fun i _ => rfl)⟩

/-- C10 counterexample: with the standard two-message (system, user) prompt
of an o-model and a transport failure on the first attempt, the merge is
*not* re-applied on the retry iteration: after the first iteration the local
message list holds a single dict, so `new_messages = messages[1:]` is empty
and `new_messages[0]` raises an `IndexError` that escapes `run` (the merge
block, lines 127-133, runs outside any `try`).  The caller's user-message
cell (address 1) retains the first iteration's in-place merge. -/
theorem o_model_merge_two_messages_cex :
    LLMHandler.run "o1-preview" (fun _ => LLMHandler.AttemptOutcome.err false) ["k"] 0 "k"
      ["sys", "usr"] [0, 1] 0 =
      (Except.error LLMHandler.RunError.indexError,
       ⟨["sys", "sys" ++ "\n" ++ "usr"], [1], 1, 0, "k", ["k"]⟩) := rfl

/-- C10 amended: for o-family models `run` mutates the caller-supplied
message dicts in place — the system content is prefixed (with a newline)
onto the user message's shared content cell — and the merge is re-applied
on each retry iteration, each time dropping the current first message and
re-merging what remains, *as long as at least two messages remain*: with
three messages, a failed first attempt re-merges into the third cell on the
second iteration; with the standard two messages, the retry iteration
instead raises an uncaught `IndexError` that escapes `run` after the first
merge already mutated the caller's cell. -/
theorem o_model_merge_amended (model : String) (hm : LLMHandler.isOModel model = true)
    (c0 c1 c2 resp k : String) (oracle : Nat → LLMHandler.AttemptOutcome) (t : ℚ)
    (h0 : oracle 0 = LLMHandler.AttemptOutcome.err false)
    (h1 : oracle 1 = LLMHandler.AttemptOutcome.ok resp) :
    LLMHandler.runLoop model oracle [k] ⟨[c0, c1, c2], [0, 1, 2], t, 0, k, []⟩ 5 =
      (Except.ok resp,
       ⟨[c0, c0 ++ "\n" ++ c1, (c0 ++ "\n" ++ c1) ++ "\n" ++ c2], [2], 1, 0, k, [k, k]⟩) ∧
    LLMHandler.runLoop model oracle [k] ⟨[c0, c1], [0, 1], t, 0, k, []⟩ 5 =
      (Except.error LLMHandler.RunError.indexError,
       ⟨[c0, c0 ++ "\n" ++ c1], [1], 1, 0, k, [k]⟩) := by
  have hfix : LLMHandler.isFixedTempModel model = true := by
    simp [LLMHandler.isFixedTempModel, hm]
  constructor
  · simp [LLMHandler.runLoop, LLMHandler.mergeO, hm, hfix, h0, h1, List.getD]
  · simp [LLMHandler.runLoop, LLMHandler.mergeO, hm, hfix, h0, h1, List.getD]

/-- Witness for the amended C10 on the model name "o1". -/
theorem o_model_merge_amended_witness :
    LLMHandler.isOModel "o1" = true ∧
    (LLMHandler.runLoop "o1"
        (fun n => if n = 0 then LLMHandler.AttemptOutcome.err false
                  else LLMHandler.AttemptOutcome.ok "r") ["k"]
        ⟨["a", "b", "c"], [0, 1, 2], 0, 0, "k", []⟩ 5 =
        (Except.ok "r",
         ⟨["a", "a" ++ "\n" ++ "b", ("a" ++ "\n" ++ "b") ++ "\n" ++ "c"],
          [2], 1, 0, "k", ["k", "k"]⟩) ∧
     LLMHandler.runLoop "o1"
        (fun n => if n = 0 then LLMHandler.AttemptOutcome.err false
                  else LLMHandler.AttemptOutcome.ok "r") ["k"]
        ⟨["a", "b"], [0, 1], 0, 0, "k", []⟩ 5 =
        (Except.error LLMHandler.RunError.indexError,
         ⟨["a", "a" ++ "\n" ++ "b"], [1], 1, 0, "k", ["k"]⟩)) :=
  ⟨by decide,
   o_model_merge_amended "o1" (by decide) "a" "b" "c" "r" "k" _ 0 rfl rfl⟩
